import Mathlib

/-!
Shallow embedding of the mini-ai-interview-screener backend
(`app/config.py`, `app/schemas.py`, `app/services.py`, `app/main.py`).

Python strings are modelled as Lean `String` / `List Char`.  Python's
whitespace handling, `lower()` and `\w` word characters are modelled at
ASCII fidelity (the repository's keyword vocabulary and fixed literals are
all ASCII).  Python `int` is modelled as `Int`; JSON floats are modelled
as exact rationals (`Rat`), which agrees with binary doubles on every
decimal literal relevant here.  I/O (the HTTP transport of
`call_openai_chat`) is modelled as an oracle parameter: the transport
either fails or yields the extracted completion text.
-/

/-- ASCII approximation of the whitespace class used by Python's
`str.strip`, `str.split()` and the regex `\s`. -/
def pyIsSpace (c : Char) : Bool :=
  c == ' ' || c == '\t' || c == '\n' || c == '\r' || c == '\x0b' || c == '\x0c'

/-- Drop leading whitespace characters. -/
def dropLeadingWs (l : List Char) : List Char := l.dropWhile pyIsSpace

/-- Drop trailing whitespace characters. -/
def dropTrailingWs (l : List Char) : List Char :=
  (l.reverse.dropWhile pyIsSpace).reverse

/-- Python `str.strip()` (ASCII whitespace). -/
def pyStrip (s : String) : String :=
  String.mk (dropTrailingWs (dropLeadingWs s.data))

/-- Python `str.lower()` (ASCII fidelity, matching `Char.toLower`). -/
def pyLower (s : String) : String := String.mk (s.data.map Char.toLower)

/-- Whitespace-splitting of Python `str.split()` (no argument): split on
runs of whitespace, discarding empty pieces.  The accumulator holds the
current word reversed. -/
def splitWsAux : List Char → List Char → List (List Char)
  | [], cur => if cur.isEmpty then [] else [cur.reverse]
  | c :: cs, cur =>
    if pyIsSpace c then
      if cur.isEmpty then splitWsAux cs [] else cur.reverse :: splitWsAux cs []
    else splitWsAux cs (c :: cur)

/-- Python `str.split()` on a string, as a list of words. -/
def pySplit (s : String) : List String :=
  (splitWsAux s.data []).map String.mk

/-- Python `sep.join(list)`. -/
def pyJoin (sep : String) : List String → String
  | [] => ""
  | [x] => x
  | x :: y :: xs => x ++ sep ++ pyJoin sep (y :: xs)

/-- Word characters of the regex `\b` boundary (ASCII approximation of
Python's `\w`). -/
def isWordChar (c : Char) : Bool := c.isAlphanum || c == '_'

/-- Head of a character list is a word character. -/
def headIsWord : List Char → Bool
  | [] => false
  | c :: _ => isWordChar c

/-- Case-insensitive literal match of `pat` (given lowercase) at the head
of the text; returns the remaining text on success. -/
def matchHere : List Char → List Char → Option (List Char)
  | [], rest => some rest
  | _ :: _, [] => none
  | p :: ps, c :: cs => if c.toLower == p then matchHere ps cs else none

/-- Scan for a whole-word, case-insensitive occurrence of `pat`
(`re.search(r"\b…\b", text, re.I)` for a pattern that begins and ends
with a word character, as every entry of `KEY_TERMS` does).  `prevWord`
records whether the previous character was a word character. -/
def searchWordAux (pat : List Char) : List Char → Bool → Bool
  | [], _ => false
  | c :: cs, prevWord =>
    (if prevWord then false
     else match matchHere pat (c :: cs) with
       | some rest => !(headIsWord rest)
       | none => false)
    || searchWordAux pat cs (isWordChar c)

/-- Whole-word case-insensitive search of a keyword in a text. -/
def kwSearch (pat : String) (text : String) : Bool :=
  searchWordAux pat.data text.data false

/-- `services.py` `KEY_TERMS`: the fixed relevance vocabulary. -/
def KEY_TERMS : List String :=
  ["design", "trade-off", "complexity", "edge", "optimize", "test",
   "security", "performance", "scalability", "consistency", "retry", "idempotent"]

/-- First match of `re.split(r"(?<=[.!?])\s+", text, maxsplit=1)[0]`:
the prefix of the text up to and including the first `.`/`!`/`?` that is
immediately followed by whitespace (the whole text when there is none). -/
def firstSentenceAux : List Char → List Char
  | [] => []
  | [c] => [c]
  | c :: d :: rest =>
    if (c == '.' || c == '!' || c == '?') && pyIsSpace d then [c]
    else c :: firstSentenceAux (d :: rest)

/-- First sentence of a text, see `firstSentenceAux`. -/
def firstSentence (s : String) : String := String.mk (firstSentenceAux s.data)

/-- `schemas.py` `EvaluateResponse` shape; also the dict
`{score, summary, improvement}` produced by the evaluation functions. -/
structure EvaluationResult where
  score : Int
  summary : String
  improvement : String
deriving DecidableEq, Repr

/-- `services.py` `fallback_score_and_text`: the deterministic heuristic
scorer. -/
def fallback_score_and_text (answer : String) : EvaluationResult :=
  let text := pyStrip answer
  if text = "" then
    { score := 1, summary := "No answer provided.",
      improvement := "Provide an answer with key ideas." }
  else
    let words := pySplit text
    let length := words.length
    let keywords := KEY_TERMS.countP (fun k => kwSearch k text)
    let score : Int :=
      if 80 ≤ length ∧ 2 ≤ keywords then 5
      else if 50 ≤ length ∧ 1 ≤ keywords then 4
      else if 25 ≤ length then 3
      else if 10 ≤ length then 2
      else 1
    let s_words := pySplit (firstSentence text)
    let summary := pyJoin " " (s_words.take 20) ++ (if 20 < s_words.length then "..." else "")
    let improvement :=
      if score < 4 then "Be more specific and mention trade-offs or testing."
      else "Add a concrete example or metrics."
    { score := score, summary := summary, improvement := improvement }

example : fallback_score_and_text "" =
    { score := 1, summary := "No answer provided.",
      improvement := "Provide an answer with key ideas." } := by decide

example : (fallback_score_and_text "short").score = 1 := by decide

example : (fallback_score_and_text "I would design the system carefully and test it. Extra words.").summary
    = "I would design the system carefully and test it." := by decide

/-!  JSON values as produced by Python's `json.loads`: integer literals
become Python `int`, other numeric literals become `float` (modelled as an
exact rational), objects keep their bindings in textual order (a later
duplicate key overwrites, which lookup models by taking the last binding). -/

/-- Python values arising from `json.loads`. -/
inductive Json where
  | null
  | bool (b : Bool)
  | int (n : Int)
  | float (q : Rat)
  | str (s : String)
  | arr (xs : List Json)
  | obj (kvs : List (String × Json))
deriving Repr

/-- JSON whitespace (exactly the four characters Python's `json` skips). -/
def jsonWs (c : Char) : Bool := c == ' ' || c == '\t' || c == '\n' || c == '\r'

/-- Skip JSON whitespace. -/
def skipWs (l : List Char) : List Char := l.dropWhile jsonWs

/-- Longest prefix of decimal digits, with the rest. -/
def takeDigits (l : List Char) : List Char × List Char :=
  (l.takeWhile Char.isDigit, l.dropWhile Char.isDigit)

/-- Value of a list of decimal digits. -/
def digitsToNat (l : List Char) : Nat :=
  l.foldl (fun acc c => acc * 10 + (c.toNat - 48)) 0

/-- Hex digit value, if any. -/
def hexVal (c : Char) : Option Nat :=
  if '0' ≤ c ∧ c ≤ '9' then some (c.toNat - 48)
  else if 'a' ≤ c ∧ c ≤ 'f' then some (c.toNat - 87)
  else if 'A' ≤ c ∧ c ≤ 'F' then some (c.toNat - 70)
  else none

/-- Body of a JSON string literal after the opening quote: returns the
decoded content and the text after the closing quote.  Raw control
characters are rejected, escapes are decoded (`\uXXXX` at scalar-value
fidelity, without surrogate pairing). -/
def parseJStringAux : List Char → Option (List Char × List Char)
  | [] => none
  | '"' :: rest => some ([], rest)
  | '\\' :: e :: rest =>
    match e with
    | '"' => (parseJStringAux rest).map (fun p => ('"' :: p.1, p.2))
    | '\\' => (parseJStringAux rest).map (fun p => ('\\' :: p.1, p.2))
    | '/' => (parseJStringAux rest).map (fun p => ('/' :: p.1, p.2))
    | 'b' => (parseJStringAux rest).map (fun p => ('\x08' :: p.1, p.2))
    | 'f' => (parseJStringAux rest).map (fun p => ('\x0c' :: p.1, p.2))
    | 'n' => (parseJStringAux rest).map (fun p => ('\n' :: p.1, p.2))
    | 'r' => (parseJStringAux rest).map (fun p => ('\r' :: p.1, p.2))
    | 't' => (parseJStringAux rest).map (fun p => ('\t' :: p.1, p.2))
    | 'u' =>
      match rest with
      | h1 :: h2 :: h3 :: h4 :: rest2 =>
        match hexVal h1, hexVal h2, hexVal h3, hexVal h4 with
        | some a, some b, some c, some d =>
          (parseJStringAux rest2).map
            (fun p => (Char.ofNat (((a * 16 + b) * 16 + c) * 16 + d) :: p.1, p.2))
        | _, _, _, _ => none
      | _ => none
    | _ => none
  | c :: rest =>
    if c.toNat < 32 then none
    else (parseJStringAux rest).map (fun p => (c :: p.1, p.2))

/-- A JSON number starting at the head of the text (after an optional
minus sign already handled by the caller): integer part, optional
fraction, optional exponent.  Returns the value and the rest. -/
def parseNumberBody (neg : Bool) (l : List Char) : Option (Json × List Char) :=
  match l with
  | [] => none
  | c :: _ =>
    if ¬c.isDigit then none
    else
      let (ip, r1) := if c == '0' then ([c], l.tail) else takeDigits l
      let (fp, r2) :=
        match r1 with
        | '.' :: r => takeDigits r
        | _ => ([], r1)
      let fracAbsent := match r1 with | '.' :: _ => false | _ => true
      if ¬fracAbsent ∧ fp.isEmpty then none
      else
        let expPart :=
          match r2 with
          | 'e' :: '+' :: r => some (false, takeDigits r)
          | 'e' :: '-' :: r => some (true, takeDigits r)
          | 'e' :: r => some (false, takeDigits r)
          | 'E' :: '+' :: r => some (false, takeDigits r)
          | 'E' :: '-' :: r => some (true, takeDigits r)
          | 'E' :: r => some (false, takeDigits r)
          | _ => none
        match expPart with
        | none =>
          let rest := r2
          if fracAbsent then
            let v : Int := if neg then -(digitsToNat ip : Int) else (digitsToNat ip : Int)
            some (.int v, rest)
          else
            let m : Int := if neg then -(digitsToNat (ip ++ fp) : Int) else (digitsToNat (ip ++ fp) : Int)
            some (.float (mkRat m (10 ^ fp.length)), rest)
        | some (eneg, (ed, rest2)) =>
          if ed.isEmpty then none
          else
            let e := digitsToNat ed
            let d := digitsToNat (ip ++ fp)
            let m : Nat := if eneg then d else d * 10 ^ e
            let den : Nat := if eneg then 10 ^ fp.length * 10 ^ e else 10 ^ fp.length
            let mi : Int := if neg then -(m : Int) else (m : Int)
            some (.float (mkRat mi den), rest2)

mutual

/-- JSON value at the head of the text (leading whitespace allowed);
fuel-indexed recursion. -/
def parseValue : Nat → List Char → Option (Json × List Char)
  | 0, _ => none
  | fuel + 1, l =>
    match skipWs l with
    | [] => none
    | 'n' :: 'u' :: 'l' :: 'l' :: rest => some (.null, rest)
    | 't' :: 'r' :: 'u' :: 'e' :: rest => some (.bool true, rest)
    | 'f' :: 'a' :: 'l' :: 's' :: 'e' :: rest => some (.bool false, rest)
    | '"' :: rest => (parseJStringAux rest).map (fun p => (.str (String.mk p.1), p.2))
    | '-' :: rest => parseNumberBody true rest
    | '\x7b' :: rest =>
      match skipWs rest with
      | '\x7d' :: rest2 => some (.obj [], rest2)
      | _ => (parseMembers fuel rest).map (fun p => (.obj p.1, p.2))
    | '[' :: rest =>
      match skipWs rest with
      | ']' :: rest2 => some (.arr [], rest2)
      | _ => (parseElems fuel rest).map (fun p => (.arr p.1, p.2))
    | l' => parseNumberBody false l'

/-- Members of a JSON object (at least one), starting after the opening
brace (or after a comma); consumes the closing brace. -/
def parseMembers : Nat → List Char → Option (List (String × Json) × List Char)
  | 0, _ => none
  | fuel + 1, l =>
    match skipWs l with
    | '"' :: rest =>
      match parseJStringAux rest with
      | none => none
      | some (key, rest2) =>
        match skipWs rest2 with
        | ':' :: rest3 =>
          match parseValue fuel rest3 with
          | none => none
          | some (v, rest4) =>
            match skipWs rest4 with
            | ',' :: rest5 =>
              (parseMembers fuel rest5).map
                (fun p => ((String.mk key, v) :: p.1, p.2))
            | '\x7d' :: rest5 => some ([(String.mk key, v)], rest5)
            | _ => none
        | _ => none
    | _ => none

/-- Elements of a JSON array (at least one), consuming the closing
bracket. -/
def parseElems : Nat → List Char → Option (List Json × List Char)
  | 0, _ => none
  | fuel + 1, l =>
    match parseValue fuel l with
    | none => none
    | some (v, rest) =>
      match skipWs rest with
      | ',' :: rest2 => (parseElems fuel rest2).map (fun p => (v :: p.1, p.2))
      | ']' :: rest2 => some ([v], rest2)
      | _ => none

end

/-- Python `json.loads`: a single JSON value with only whitespace around
it. -/
def jloads (s : String) : Option Json :=
  match parseValue (2 * s.length + 2) s.data with
  | some (v, rest) => if skipWs rest = [] then some v else none
  | none => none

example : jloads " \x7b\"a\": [1, 2.5, \"x\"], \"b\": null\x7d " =
    some (.obj [("a", .arr [.int 1, .float (mkRat 5 2), .str "x"]), ("b", .null)]) := by
  rfl

example : jloads "\x7b\"score\": 4.9\x7d" = some (.obj [("score", .float (mkRat 49 10))]) := by
  rfl

example : jloads "\x7b\"score\": 1.5e2\x7d" = some (.obj [("score", .float (mkRat 150 1))]) := by
  rfl

example : jloads "-3" = some (.int (-3)) := by rfl

example : jloads "\x7b bad" = none := by rfl

example : jloads "\x7b\x7d x" = none := by rfl

/-- Lookup in a parsed JSON object, Python-dict style: a later duplicate
key overwrites an earlier one, so the last binding wins. -/
def objGet (kvs : List (String × Json)) (k : String) : Option Json :=
  (kvs.reverse.find? (fun p => p.1 == k)).map Prod.snd

/-- Python `int(float)`: truncation toward zero.  `Int.div` is exactly
T-division.  (JSON floats are modelled as exact rationals; binary-double
rounding is ignored, which agrees on the decimal literals at issue.) -/
def ratTrunc (q : Rat) : Int := Int.tdiv q.num (q.den : Int)

/-- Python `int(str)`: surrounding whitespace allowed, optional sign,
then decimal digits.  (Underscore digit separators and non-ASCII digits
are not modelled.) -/
def pyIntOfString (s : String) : Option Int :=
  match dropTrailingWs (dropLeadingWs s.data) with
  | [] => none
  | '-' :: ds =>
    if ds ≠ [] ∧ ds.all Char.isDigit then some (-(digitsToNat ds : Int)) else none
  | '+' :: ds =>
    if ds ≠ [] ∧ ds.all Char.isDigit then some (digitsToNat ds : Int) else none
  | ds => if ds.all Char.isDigit then some (digitsToNat ds : Int) else none

/-- Python `int(x)` on a value coming out of `json.loads`: `none` models
the `TypeError`/`ValueError` that `int` raises on a non-numeric value. -/
def pyIntOfJson : Json → Option Int
  | .int n => some n
  | .bool b => some (if b then 1 else 0)
  | .float q => some (ratTrunc q)
  | .str s => pyIntOfString s
  | .null => none
  | .arr _ => none
  | .obj _ => none

/-- A single-quote string, built by code point to keep the source free of
quote characters. -/
def sglq : String := String.mk [Char.ofNat 39]

/-- Python `repr` of a float, approximated (the real shortest-roundtrip
rendering of a binary double is not modelled; no claim depends on it). -/
def pyFloatStr (q : Rat) : String := toString q.num ++ "/" ++ toString q.den

mutual

/-- Python `repr` of a `json.loads` value (approximated for floats and
for string escaping; exact on `None`/booleans/ints). -/
def pyRepr : Json → String
  | .null => "None"
  | .bool true => "True"
  | .bool false => "False"
  | .int n => toString n
  | .float q => pyFloatStr q
  | .str s => sglq ++ s ++ sglq
  | .arr xs => "[" ++ pyReprList xs ++ "]"
  | .obj kvs => "\x7b" ++ pyReprMembers kvs ++ "\x7d"

/-- Comma-joined reprs of array elements. -/
def pyReprList : List Json → String
  | [] => ""
  | [x] => pyRepr x
  | x :: y :: xs => pyRepr x ++ ", " ++ pyReprList (y :: xs)

/-- Comma-joined reprs of object members. -/
def pyReprMembers : List (String × Json) → String
  | [] => ""
  | [(k, v)] => sglq ++ k ++ sglq ++ ": " ++ pyRepr v
  | (k, v) :: m :: ms => sglq ++ k ++ sglq ++ ": " ++ pyRepr v ++ ", " ++ pyReprMembers (m :: ms)

end

/-- Python `str(x)` on a value coming out of `json.loads`. -/
def pyStr : Json → String
  | .str s => s
  | j => pyRepr j

/-- Index of the first occurrence of a character (`str.find`, as an
option instead of `-1`). -/
def strFindChar (s : String) (c : Char) : Option Nat := s.data.findIdx? (· == c)

/-- Index of the last occurrence of a character (`str.rfind`, as an
option instead of `-1`). -/
def strRFindChar (s : String) (c : Char) : Option Nat :=
  (s.data.reverse.findIdx? (· == c)).map (fun i => s.data.length - 1 - i)

/-- The candidate span `raw[start:end+1]` of `parse_model_json`, from the
first opening brace to the last closing brace, requiring `start < end`. -/
def spanOf (raw : String) : Option String :=
  match strFindChar raw '\x7b', strRFindChar raw '\x7d' with
  | some i, some j =>
    if j ≤ i then none else some (String.mk ((raw.data.drop i).take (j - i + 1)))
  | _, _ => none

/-- The ways `parse_model_json` can raise (`ValueError` from the explicit
checks or from `json.loads` / `int`; `AttributeError` would arise on a
non-dict parse, though the span always starts with a brace). -/
inductive ParseErr where
  | emptyOutput
  | noJsonObject
  | badJson
  | badScore
  | notAnObject
deriving DecidableEq, Repr

/-- `services.py` `parse_model_json`: extract the first-brace-to-last-brace
span, parse it as JSON, then normalize: `score = int(parsed.get("score", 1))`
clamped to `[1,5]` (raising on a non-numeric value), `summary` and
`improvement` stringified and stripped (the two `if not …` rewrites in the
source are no-ops on strings and are omitted). -/
def parse_model_json (raw : String) : Except ParseErr EvaluationResult :=
  if raw = "" then .error .emptyOutput
  else
    match spanOf raw with
    | none => .error .noJsonObject
    | some candidate =>
      match jloads candidate with
      | none => .error .badJson
      | some (.obj kvs) =>
        match (match objGet kvs "score" with
               | none => some 1
               | some v => pyIntOfJson v) with
        | none => .error .badScore
        | some n =>
          .ok { score := max 1 (min 5 n),
                summary := pyStrip (pyStr ((objGet kvs "summary").getD (.str ""))),
                improvement := pyStrip (pyStr ((objGet kvs "improvement").getD (.str ""))) }
      | some _ => .error .notAnObject

example : parse_model_json "\x7b\"score\": 3, \"summary\": \" hi \", \"improvement\": \"x\"\x7d"
    = .ok { score := 3, summary := "hi", improvement := "x" } := by rfl

example : parse_model_json "noise \x7b\"score\": 9\x7d trailing"
    = .ok { score := 5, summary := "", improvement := "" } := by rfl

example : parse_model_json "\x7b\"score\": \"x\"\x7d" = .error .badScore := by rfl

example : parse_model_json "" = .error .emptyOutput := by rfl

example : parse_model_json "no braces here" = .error .noJsonObject := by rfl

example : parse_model_json "\x7d\x7b" = .error .noJsonObject := by rfl

example : parse_model_json "\x7bnot json\x7d" = .error .badJson := by rfl

example : parse_model_json "\x7b\"score\": 4.9\x7d"
    = .ok { score := 4, summary := "", improvement := "" } := by rfl

/-- `config.py` `Settings`: the process configuration snapshot. -/
structure Settings where
  OPENAI_API_KEY : String
  OPENAI_MODEL : String
  OPENAI_API_BASE : String
  USE_FALLBACK : Bool
deriving DecidableEq, Repr

/-- `config.py` `Settings` construction from the environment
(`os.getenv` modelled as a partial map). -/
def Settings.ofEnv (env : String → Option String) : Settings :=
  let key := pyStrip ((env "OPENAI_API_KEY").getD "")
  let fb := pyLower ((env "USE_FALLBACK").getD "")
  { OPENAI_API_KEY := key,
    OPENAI_MODEL := (env "OPENAI_MODEL").getD "gpt-4o-mini",
    OPENAI_API_BASE := (env "OPENAI_API_BASE").getD "https://api.openai.com/v1",
    USE_FALLBACK := (fb == "1" || fb == "true") || key == "" }

/-- Transport-level failures of the remote call: connection errors, the
30-second timeout, and `raise_for_status` on a non-success response. -/
inductive TransportError where
  | network
  | timeout
  | badStatus
deriving DecidableEq, Repr

/-- Failures of `call_openai_chat`: the explicit missing-credential
`RuntimeError` or a transport failure. -/
inductive RemoteError where
  | config
  | transport (e : TransportError)
deriving DecidableEq, Repr

/-- `services.py` `call_openai_chat`: checks the credential, then performs
the HTTP POST.  The request/response round trip and the extraction of the
completion text (`choices[0].message.content`, falling back to
`choices[0].text` and then to serializing the whole body — which never
fails) are outside the core per spec section 1/6 and are abstracted as the
`transport` oracle, which either fails or yields the extracted text. -/
def call_openai_chat (apiKey : String) (transport : Except TransportError String) :
    Except RemoteError String :=
  if apiKey = "" then .error .config
  else
    match transport with
    | .error e => .error (.transport e)
    | .ok raw => .ok raw

/-- First part of `services.py` `EVAL_PROMPT`, up to the `answer`
placeholder. -/
def EVAL_PROMPT_PRE : String :=
  "\nYou are an expert hiring screener. Evaluate the candidate" ++ sglq ++
  "s short answer and RETURN STRICT JSON (no extra commentary).\n" ++
  "Output EXACTLY three fields:\n- score: integer 1-5 (5 best)\n" ++
  "- summary: one-line concise summary (<= 20 words)\n" ++
  "- improvement: one short suggestion (<= 25 words)\n\nCandidate says:\n\"\"\""

/-- Second part of `services.py` `EVAL_PROMPT`, after the placeholder. -/
def EVAL_PROMPT_POST : String :=
  "\"\"\"\n\nUse these heuristics:\n" ++
  "5: Correct, complete, concise, shows depth or example.\n" ++
  "4: Mostly correct, minor missing detail.\n" ++
  "3: Partially correct or incomplete.\n" ++
  "2: Poor, big gaps.\n" ++
  "1: Incorrect/irrelevant.\n\nReturn JSON only.\n"

/-- `EVAL_PROMPT.format(answer=txt)`: `str.format` substitutes the one
placeholder and leaves the substituted text untouched. -/
def eval_prompt (answer : String) : String :=
  EVAL_PROMPT_PRE ++ answer ++ EVAL_PROMPT_POST

/-- Characters after the first colon (`txt.split(":", 1)[1]` when a colon
is present, as the prefix check guarantees at the call site). -/
def afterFirstColon : List Char → List Char
  | [] => []
  | c :: cs => if c == ':' then cs else afterFirstColon cs

/-- Literal prefix check on character lists (`str.startswith`). -/
def startsWithList : List Char → List Char → Bool
  | _, [] => true
  | [], _ :: _ => false
  | c :: cs, p :: ps => c == p && startsWithList cs ps

/-- Input normalization of `evaluate_text`: strip, then strip a
case-insensitive `"candidate says:"` prefix at the first colon and strip
the remainder. -/
def normalizeAnswer (answer : String) : String :=
  let txt := pyStrip answer
  if startsWithList (pyLower txt).data "candidate says:".data then
    pyStrip (String.mk (afterFirstColon txt.data))
  else txt

/-- `services.py` `evaluate_text`: normalize the answer, use the heuristic
when fallback is on, otherwise call the remote scorer and parse its
output, falling back to the heuristic on any remote or parse failure. -/
def evaluate_text (s : Settings) (transport : String → Except TransportError String)
    (answer : String) : EvaluationResult :=
  let txt := normalizeAnswer answer
  if s.USE_FALLBACK then fallback_score_and_text txt
  else
    match call_openai_chat s.OPENAI_API_KEY (transport (eval_prompt txt)) with
    | .error _ => fallback_score_and_text txt
    | .ok raw =>
      match parse_model_json raw with
      | .error _ => fallback_score_and_text txt
      | .ok parsed => parsed

/-- `services.py` `evaluate_bulk`: evaluate each `(id, text)` item;
`asyncio.gather` returns the results in task order, so the concurrent
fan-out denotes a map (see `gatherAssemble` for the completion-order
model). -/
def evaluate_bulk (s : Settings) (transport : String → Except TransportError String)
    (items : List (Option String × String)) : List EvaluationResult :=
  items.map (fun it => evaluate_text s transport it.2)

/-- Write a value at an index of a list (no-op out of range). -/
def setAt {α : Type} : List α → Nat → α → List α
  | [], _, _ => []
  | _ :: xs, 0, v => v :: xs
  | x :: xs, n + 1, v => x :: setAt xs n v

/-- Completion-order model of `asyncio.gather`: tasks finish in the order
given by `order`, and each completion stores its result in its own slot of
the result list.  `gatherAssemble_perm` below shows the outcome is the
in-order result list for every completion order. -/
def gatherAssemble {α : Type} (results : List α) (order : List Nat) : List (Option α) :=
  order.foldl (fun acc i => setAt acc i results[i]?) (List.replicate results.length none)

/-- `schemas.py` `CandidateIn`. -/
structure CandidateIn where
  id : Option String
  text : String
deriving DecidableEq, Repr

/-- `schemas.py` `RankedCandidate`. -/
structure RankedCandidate where
  id : Option String
  text : String
  score : Int
  summary : String
  improvement : String
deriving DecidableEq, Repr

/-- The Python sort key of `rank_candidates`:
`lambda x: (-x.score, -len(x.summary))`, character length. -/
def rankKey (x : RankedCandidate) : Int × Int :=
  (-x.score, -(x.summary.length : Int))

/-- Lexicographic `≤` on sort keys (tuple comparison of Python). -/
def keyLE (a b : Int × Int) : Bool :=
  decide (a.1 < b.1) || (decide (a.1 = b.1) && decide (a.2 ≤ b.2))

/-- The sort order of `rank_candidates` as a relation. -/
def rankedLE (a b : RankedCandidate) : Prop := keyLE (rankKey a) (rankKey b) = true

instance : DecidableRel rankedLE := fun _ _ => instDecidableEqBool _ _

/-- Python `sorted(ranked_objs, key=lambda x: (-x.score, -len(x.summary)))`:
a stable sort by the key, here as stable insertion sort (extensionally the
sort Python performs, whose defining properties — sortedness, permutation,
stability — are proved below). -/
def pySortRanked (l : List RankedCandidate) : List RankedCandidate :=
  List.insertionSort rankedLE l

/-- The `ranked_objs` list of `main.py` `rank_candidates`: each candidate
id and original text merged with its evaluation (`int(res["score"])` is
the identity on the already-integral score). -/
def mkRankedObjs (items : List (Option String × String))
    (results : List EvaluationResult) : List RankedCandidate :=
  (items.zip results).map (fun p =>
    { id := p.1.1, text := p.1.2, score := p.2.score,
      summary := p.2.summary, improvement := p.2.improvement })

/-- `main.py` `rank_candidates`: reject an empty batch with a 400
client error, otherwise evaluate all candidates concurrently and return
them sorted by descending score, ties by descending summary length. -/
def rank_candidates (s : Settings) (transport : String → Except TransportError String)
    (candidates : List CandidateIn) : Except (Nat × String) (List RankedCandidate) :=
  if candidates.isEmpty then .error (400, "No candidates provided")
  else
    let items := candidates.map (fun c => (c.id, c.text))
    let results := evaluate_bulk s transport items
    .ok (pySortRanked (mkRankedObjs items results))

/-- `main.py` `evaluate_answer` endpoint: a direct wrapper of
`evaluate_text` (`EvaluateResponse(**result)` is the identity on the
triple), total — no error path exists. -/
def evaluate_answer (s : Settings) (transport : String → Except TransportError String)
    (text : String) : EvaluationResult :=
  evaluate_text s transport text

/-- A fallback-mode configuration and an unused transport, for examples. -/
def fbSettings : Settings :=
  { OPENAI_API_KEY := "", OPENAI_MODEL := "gpt-4o-mini",
    OPENAI_API_BASE := "https://api.openai.com/v1", USE_FALLBACK := true }

/-- A remote-mode configuration, for examples. -/
def rmSettings : Settings :=
  { OPENAI_API_KEY := "k", OPENAI_MODEL := "gpt-4o-mini",
    OPENAI_API_BASE := "https://api.openai.com/v1", USE_FALLBACK := false }

example : evaluate_text fbSettings (fun _ => .error .timeout) "Candidate says:   hi  "
    = fallback_score_and_text "hi" := by decide

example : evaluate_text rmSettings (fun _ => .ok "\x7b\"score\": 7, \"summary\": \"s\"\x7d") "hi"
    = { score := 5, summary := "s", improvement := "" } := by decide

example : evaluate_text rmSettings (fun _ => .error .timeout) "hi"
    = fallback_score_and_text "hi" := by decide

example : rank_candidates fbSettings (fun _ => .error .network) [] = .error (400, "No candidates provided") := by rfl

/-- The score-threshold table exactly as the spec words it (section 4.1
step 4, rules evaluated in order, first match wins) — the spec-side
definition for the refinement comparison against the code. -/
def specScore (length keywordHits : Nat) : Int :=
  if 80 ≤ length ∧ 2 ≤ keywordHits then 5
  else if 50 ≤ length ∧ 1 ≤ keywordHits then 4
  else if 25 ≤ length then 3
  else if 10 ≤ length then 2
  else 1

/-- Number of distinct `KEY_TERMS` with a whole-word, case-insensitive
occurrence in the text. -/
def kwHits (t : String) : Nat := KEY_TERMS.countP (fun k => kwSearch k t)

/-- An 80-word answer containing the keywords design and test, for
the C5 witness. -/
def longAnswer : String := pyJoin " " ("design" :: "test" :: List.replicate 78 "a")

/-- The score field of a parsed object is absent or convertible to an
integer by Python `int`. -/
def scoreFieldOk (kvs : List (String × Json)) : Prop :=
  objGet kvs "score" = none
  ∨ ∃ v n, objGet kvs "score" = some v ∧ pyIntOfJson v = some n

/-- The `ranked_objs` list that `rank_candidates` builds for a batch
before sorting. -/
def rankedObjsOf (s : Settings) (transport : String → Except TransportError String)
    (cs : List CandidateIn) : List RankedCandidate :=
  mkRankedObjs (cs.map fun c => (c.id, c.text))
    (evaluate_bulk s transport (cs.map fun c => (c.id, c.text)))

instance : IsTotal RankedCandidate rankedLE :=
  ⟨fun a b => by
    unfold rankedLE keyLE
    simp only [Bool.or_eq_true, Bool.and_eq_true, decide_eq_true_eq]
    omega⟩

instance : IsTrans RankedCandidate rankedLE :=
  ⟨fun a b c hab hbc => by
    unfold rankedLE keyLE at hab hbc ⊢
    simp only [Bool.or_eq_true, Bool.and_eq_true, decide_eq_true_eq] at hab hbc ⊢
    omega⟩

/-- A concrete two-candidate batch for the C3 witness. -/
def csW : List CandidateIn :=
  [{ id := some "c1", text := "short" }, { id := some "c2", text := "also fairly short" }]

/-- A transport oracle that always fails, for witnesses. -/
def trW : String → Except TransportError String := fun _ => .error .network

/-! Range lemmas shared by several claims. -/

/-- The heuristic scorer only produces scores 1 to 5. -/
theorem fallback_score_range (t : String) :
    1 ≤ (fallback_score_and_text t).score ∧ (fallback_score_and_text t).score ≤ 5 := by
  unfold fallback_score_and_text
  dsimp only
  split
  · exact ⟨le_refl 1, by norm_num⟩
  · dsimp only
    split_ifs <;> simp

/-- A successful parse yields a score clamped into 1 to 5. -/
theorem parse_score_range (raw : String) (r : EvaluationResult)
    (h : parse_model_json raw = .ok r) : 1 ≤ r.score ∧ r.score ≤ 5 := by
  unfold parse_model_json at h
  split at h
  · exact absurd h (by simp)
  · split at h
    · exact absurd h (by simp)
    · split at h
      · exact absurd h (by simp)
      · split at h
        · exact absurd h (by simp)
        · rename_i n _
          injection h with h
          subst h
          refine ⟨le_max_left _ _, max_le (by norm_num) ?_⟩
          exact min_le_left _ _
      · exact absurd h (by simp)

/-- Whenever the heuristic path is taken — fallback mode, a failed remote
call, or a failed parse — `evaluate_text` returns exactly the heuristic
result on the normalized text. -/
theorem evaluate_text_heuristic_path (s : Settings)
    (transport : String → Except TransportError String) (answer : String)
    (h : s.USE_FALLBACK = true
      ∨ (∃ e, call_openai_chat s.OPENAI_API_KEY
          (transport (eval_prompt (normalizeAnswer answer))) = .error e)
      ∨ (∃ raw pe, call_openai_chat s.OPENAI_API_KEY
          (transport (eval_prompt (normalizeAnswer answer))) = .ok raw
          ∧ parse_model_json raw = .error pe)) :
    evaluate_text s transport answer = fallback_score_and_text (normalizeAnswer answer) := by
  unfold evaluate_text
  dsimp only
  split
  · rfl
  · rename_i hfb
    rcases h with h | ⟨e, he⟩ | ⟨raw, pe, hok, hpe⟩
    · exact absurd h hfb
    · rw [he]
    · simp only [hok, hpe]

/-- **C1.** `evaluate_text` is a total function into `EvaluationResult`
(never an exception to its caller — totality is the type), and on any
failure of the remote call or of the parsing of its output it returns
exactly the heuristic scorer applied to the normalized (trimmed,
prefix-stripped) text. -/
theorem evaluate_text_fail_open (s : Settings)
    (transport : String → Except TransportError String) (answer : String)
    (h : (∃ e, call_openai_chat s.OPENAI_API_KEY
          (transport (eval_prompt (normalizeAnswer answer))) = .error e)
      ∨ (∃ raw pe, call_openai_chat s.OPENAI_API_KEY
          (transport (eval_prompt (normalizeAnswer answer))) = .ok raw
          ∧ parse_model_json raw = .error pe)) :
    evaluate_text s transport answer = fallback_score_and_text (normalizeAnswer answer) :=
  evaluate_text_heuristic_path s transport answer (Or.inr h)

/-- Witness for C1: a concrete remote-enabled configuration whose
transport times out falls back to the heuristic on the normalized text. -/
theorem evaluate_text_fail_open_witness :
    evaluate_text rmSettings (fun _ => .error .timeout) "Candidate says:  hello there "
      = fallback_score_and_text (normalizeAnswer "Candidate says:  hello there ") :=
  evaluate_text_fail_open rmSettings (fun _ => .error .timeout)
    "Candidate says:  hello there " (Or.inl ⟨.transport .timeout, rfl⟩)

/-- **C2.** Through every path — heuristic fallback or remote-then-parse —
the score of the result of `evaluate_text` is an integer between 1 and 5.
(The summary and improvement fields are total `String` fields of
`EvaluationResult`, hence always present and never null, by type.) -/
theorem evaluate_text_score_range (s : Settings)
    (transport : String → Except TransportError String) (answer : String) :
    1 ≤ (evaluate_text s transport answer).score
    ∧ (evaluate_text s transport answer).score ≤ 5 := by
  unfold evaluate_text
  dsimp only
  split
  · exact fallback_score_range _
  · split
    · exact fallback_score_range _
    · rename_i raw _
      match hp : parse_model_json raw with
      | .error pe => simp [hp, fallback_score_range]
      | .ok r => simpa [hp] using parse_score_range raw r hp

/-- Counterexample for C6 as stated: with the remote path enabled and a
successfully parsed remote reply, the empty input does not produce the
fixed empty-answer triple — the remote result is returned instead. -/
theorem empty_answer_remote_counterexample :
    evaluate_text rmSettings
        (fun _ => .ok "\x7b\"score\": 3, \"summary\": \"ok\", \"improvement\": \"x\"\x7d") ""
      = { score := 3, summary := "ok", improvement := "x" }
    ∧ evaluate_text rmSettings
        (fun _ => .ok "\x7b\"score\": 3, \"summary\": \"ok\", \"improvement\": \"x\"\x7d") ""
      ≠ { score := 1, summary := "No answer provided.",
          improvement := "Provide an answer with key ideas." } := by
  refine ⟨by rfl, ?_⟩
  intro h
  rw [show evaluate_text rmSettings
      (fun _ => .ok "\x7b\"score\": 3, \"summary\": \"ok\", \"improvement\": \"x\"\x7d") ""
      = { score := 3, summary := "ok", improvement := "x" } from rfl] at h
  exact absurd h (by decide)

/-- **C6 (amended).** For every input whose trimmed text is empty
(including the empty string), evaluation returns exactly the fixed
empty-answer triple whenever it takes the heuristic path — fallback mode,
a failed remote call, or a failed parse.  (In remote mode with a
successfully parsed remote reply the remote result is returned instead;
see the counterexample.) -/
theorem empty_answer_heuristic (s : Settings)
    (transport : String → Except TransportError String) (answer : String)
    (hempty : pyStrip answer = "")
    (hpath : s.USE_FALLBACK = true
      ∨ (∃ e, call_openai_chat s.OPENAI_API_KEY
          (transport (eval_prompt (normalizeAnswer answer))) = .error e)
      ∨ (∃ raw pe, call_openai_chat s.OPENAI_API_KEY
          (transport (eval_prompt (normalizeAnswer answer))) = .ok raw
          ∧ parse_model_json raw = .error pe)) :
    evaluate_text s transport answer
      = { score := 1, summary := "No answer provided.",
          improvement := "Provide an answer with key ideas." } := by
  have hnorm : normalizeAnswer answer = "" := by
    unfold normalizeAnswer
    rw [hempty]
    rfl
  rw [evaluate_text_heuristic_path s transport answer hpath, hnorm]
  rfl

/-- Witness for C6: a whitespace-only input under fallback mode yields the
fixed empty-answer triple. -/
theorem empty_answer_heuristic_witness :
    evaluate_text fbSettings (fun _ => .error .network) "   "
      = { score := 1, summary := "No answer provided.",
          improvement := "Provide an answer with key ideas." } :=
  empty_answer_heuristic fbSettings (fun _ => .error .network) "   "
    (by decide) (Or.inl rfl)

/-- **C5.** For every non-empty (after trimming) input, the heuristic
scorer assigns the score by the spec's first-matching-rule table applied
to the whitespace-token count and the distinct keyword-hit count; in
particular any 80-plus-word answer with at least 2 keyword hits scores
exactly 5. -/
theorem fallback_first_match_rules (answer : String) (h : pyStrip answer ≠ "") :
    (fallback_score_and_text answer).score
      = specScore (pySplit (pyStrip answer)).length (kwHits (pyStrip answer))
    ∧ (80 ≤ (pySplit (pyStrip answer)).length → 2 ≤ kwHits (pyStrip answer)
        → (fallback_score_and_text answer).score = 5) := by
  have h1 : (fallback_score_and_text answer).score
      = specScore (pySplit (pyStrip answer)).length (kwHits (pyStrip answer)) := by
    unfold fallback_score_and_text
    dsimp only
    split
    · rename_i he
      exact absurd he h
    · rfl
  refine ⟨h1, fun hl hk => ?_⟩
  rw [h1]
  unfold specScore
  rw [if_pos ⟨hl, hk⟩]

/-- Witness for C5 at a concrete 80-word, 2-keyword answer: the score is
exactly 5. -/
theorem fallback_first_match_rules_witness :
    pyStrip longAnswer ≠ ""
    ∧ 80 ≤ (pySplit (pyStrip longAnswer)).length
    ∧ 2 ≤ kwHits (pyStrip longAnswer)
    ∧ (fallback_score_and_text longAnswer).score = 5 :=
  ⟨by decide, by decide, by decide,
   (fallback_first_match_rules longAnswer (by decide)).2 (by decide) (by decide)⟩

/-! Toolkit for the prefix-normalization claim: how `pyStrip` interacts
with appended whitespace and with the fixed prefix. -/

/-- Dropping from the left walks through a fully-satisfying prefix. -/
theorem dropWhile_append_of_all {α : Type} {p : α → Bool} {l1 l2 : List α}
    (h : ∀ c ∈ l1, p c) : List.dropWhile p (l1 ++ l2) = List.dropWhile p l2 := by
  induction l1 with
  | nil => rfl
  | cons c cs ih =>
    rw [List.cons_append, List.dropWhile_cons, if_pos (h c (by simp))]
    exact ih (fun x hx => h x (by simp [hx]))

/-- Dropping from the left stops inside a prefix containing a
non-satisfying element. -/
theorem dropWhile_append_of_exists {α : Type} {p : α → Bool} {l1 l2 : List α}
    (h : ∃ c ∈ l1, ¬ p c) : List.dropWhile p (l1 ++ l2) = List.dropWhile p l1 ++ l2 := by
  induction l1 with
  | nil => simp at h
  | cons c cs ih =>
    by_cases hc : p c
    · rw [List.cons_append, List.dropWhile_cons, if_pos hc, List.dropWhile_cons, if_pos hc]
      apply ih
      rcases h with ⟨d, hd, hpd⟩
      rcases List.mem_cons.mp hd with rfl | hd
      · exact absurd hc hpd
      · exact ⟨d, hd, hpd⟩
    · rw [List.cons_append, List.dropWhile_cons, if_neg hc, List.dropWhile_cons, if_neg hc]
      rfl

/-- `dropTrailingWs` is Mathlib's `rdropWhile` on the whitespace class. -/
theorem dropTrailingWs_eq_rdropWhile (l : List Char) :
    dropTrailingWs l = l.rdropWhile pyIsSpace := rfl

/-- Appending trailing whitespace does not change the trailing strip. -/
theorem dropTrailingWs_append_ws {l ws : List Char} (h : ∀ c ∈ ws, pyIsSpace c) :
    dropTrailingWs (l ++ ws) = dropTrailingWs l := by
  unfold dropTrailingWs
  rw [List.reverse_append, dropWhile_append_of_all (by simpa using h)]

/-- As long as some element is not whitespace, the trailing strip peels a
head element through. -/
theorem dropTrailingWs_cons {c : Char} {t : List Char}
    (h : ∃ x ∈ c :: t, ¬ pyIsSpace x) :
    dropTrailingWs (c :: t) = c :: dropTrailingWs t := by
  unfold dropTrailingWs
  by_cases ht : ∃ x ∈ t, ¬ pyIsSpace x
  · rw [show (c :: t).reverse = t.reverse ++ [c] by simp,
      dropWhile_append_of_exists (by simpa using ht)]
    simp
  · push_neg at ht
    have hc : ¬ pyIsSpace c := by
      rcases h with ⟨d, hd, hpd⟩
      rcases List.mem_cons.mp hd with rfl | hd
      · exact hpd
      · exact absurd (ht d hd) hpd
    rw [show (c :: t).reverse = t.reverse ++ [c] by simp,
      dropWhile_append_of_all (by simpa using ht)]
    have h2 : List.dropWhile pyIsSpace t.reverse = [] :=
      List.dropWhile_eq_nil_iff.mpr (by simpa using ht)
    rw [List.dropWhile_cons, if_neg (by simpa using hc), h2]
    simp

/-- Leading and trailing whitespace stripping commute. -/
theorem dropLeading_dropTrailing_comm (l : List Char) :
    dropLeadingWs (dropTrailingWs l) = dropTrailingWs (dropLeadingWs l) := by
  induction l with
  | nil => rfl
  | cons c t ih =>
    by_cases hall : ∀ x ∈ c :: t, pyIsSpace x
    · have h1 : dropTrailingWs (c :: t) = [] := by
        rw [dropTrailingWs_eq_rdropWhile]
        exact List.rdropWhile_eq_nil_iff.mpr hall
      have h2 : dropLeadingWs (c :: t) = [] :=
        List.dropWhile_eq_nil_iff.mpr hall
      rw [h1, h2]
      rfl
    · push_neg at hall
      have hex : ∃ x ∈ c :: t, ¬ pyIsSpace x := by
        rcases hall with ⟨d, hd, hpd⟩
        exact ⟨d, hd, by simpa using hpd⟩
      rw [dropTrailingWs_cons hex]
      by_cases hc : pyIsSpace c
      · have hl : dropLeadingWs (c :: t) = dropLeadingWs t := by
          unfold dropLeadingWs
          rw [List.dropWhile_cons, if_pos hc]
        have hl2 : dropLeadingWs (c :: dropTrailingWs t) = dropLeadingWs (dropTrailingWs t) := by
          unfold dropLeadingWs
          rw [List.dropWhile_cons, if_pos hc]
        rw [hl, hl2, ih]
      · have hl : dropLeadingWs (c :: t) = c :: t := by
          unfold dropLeadingWs
          rw [List.dropWhile_cons, if_neg hc]
        have hl2 : dropLeadingWs (c :: dropTrailingWs t) = c :: dropTrailingWs t := by
          unfold dropLeadingWs
          rw [List.dropWhile_cons, if_neg hc]
        rw [hl, hl2, dropTrailingWs_cons hex]

/-- Trailing strip is idempotent. -/
theorem dropTrailingWs_idem (l : List Char) :
    dropTrailingWs (dropTrailingWs l) = dropTrailingWs l := by
  rw [dropTrailingWs_eq_rdropWhile, dropTrailingWs_eq_rdropWhile]
  exact List.rdropWhile_idempotent _ _

/-- Stripping absorbs any all-whitespace padding on both sides. -/
theorem pyStrip_pad {ws1 ws2 : String} (m : String)
    (h1 : ∀ c ∈ ws1.data, pyIsSpace c) (h2 : ∀ c ∈ ws2.data, pyIsSpace c) :
    pyStrip (ws1 ++ m ++ ws2) = pyStrip m := by
  unfold pyStrip
  rw [String.data_append, String.data_append]
  unfold dropLeadingWs
  rw [List.append_assoc, dropWhile_append_of_all h1]
  by_cases hm : ∃ x ∈ m.data, ¬ pyIsSpace x
  · rw [dropWhile_append_of_exists hm, dropTrailingWs_append_ws h2]
  · push_neg at hm
    rw [dropWhile_append_of_all (by simpa using hm),
      show List.dropWhile pyIsSpace m.data = [] from
        List.dropWhile_eq_nil_iff.mpr (by simpa using hm)]
    rw [show List.dropWhile pyIsSpace ws2.data = [] from
      List.dropWhile_eq_nil_iff.mpr h2]

/-- A non-whitespace element lets the trailing strip pass over the whole
left part. -/
theorem dropTrailingWs_append_of_exists {l1 l2 : List Char}
    (h : ∃ x ∈ l2, ¬ pyIsSpace x) :
    dropTrailingWs (l1 ++ l2) = l1 ++ dropTrailingWs l2 := by
  unfold dropTrailingWs
  rw [List.reverse_append, dropWhile_append_of_exists (by simpa using h),
    List.reverse_append, List.reverse_reverse]

/-- A list starts with each of its prefixes. -/
theorem startsWithList_append (p r : List Char) : startsWithList (p ++ r) p = true := by
  induction p with
  | nil => cases r <;> rfl
  | cons c cs ih => simp [startsWithList, ih]

/-- `afterFirstColon` cuts at the first colon. -/
theorem afterFirstColon_append {A rest : List Char} (h : ∀ c ∈ A, ¬ c = ':') :
    afterFirstColon (A ++ ':' :: rest) = rest := by
  induction A with
  | nil => simp [afterFirstColon]
  | cons c cs ih =>
    rw [List.cons_append]
    unfold afterFirstColon
    rw [if_neg (by simpa using h c (by simp))]
    exact ih (fun x hx => h x (by simp [hx]))

/-- `evaluate_text` depends on its input only through the normalized
text. -/
theorem evaluate_text_congr (s : Settings)
    (transport : String → Except TransportError String) {a b : String}
    (h : normalizeAnswer a = normalizeAnswer b) :
    evaluate_text s transport a = evaluate_text s transport b := by
  unfold evaluate_text
  rw [h]

/-- Normalization of an unprefixed text (whose stripped form does not
start with the prefix) is just stripping, whatever whitespace padding
surrounds it. -/
theorem normalizeAnswer_unprefixed {X ws3 ws4 : String}
    (hX : startsWithList (pyLower (pyStrip X)).data "candidate says:".data = false)
    (h3 : ∀ c ∈ ws3.data, pyIsSpace c) (h4 : ∀ c ∈ ws4.data, pyIsSpace c) :
    normalizeAnswer (ws3 ++ X ++ ws4) = pyStrip X := by
  unfold normalizeAnswer
  rw [pyStrip_pad X h3 h4, if_neg (by rw [hX]; exact Bool.false_ne_true)]

/-- Normalization of a `"Candidate says: "`-prefixed text, with any
whitespace padding, strips the prefix and yields the stripped payload. -/
theorem normalizeAnswer_prefixed (X ws1 ws2 : String)
    (h1 : ∀ c ∈ ws1.data, pyIsSpace c) (h2 : ∀ c ∈ ws2.data, pyIsSpace c) :
    normalizeAnswer (ws1 ++ "Candidate says: " ++ X ++ ws2) = pyStrip X := by
  have hassoc : ws1 ++ "Candidate says: " ++ X ++ ws2
      = ws1 ++ ("Candidate says: " ++ X) ++ ws2 := by
    cases ws1
    cases X
    cases ws2
    show String.mk _ = String.mk _
    simp
  rw [hassoc]
  unfold normalizeAnswer
  rw [pyStrip_pad _ h1 h2]
  have hstep : pyStrip ("Candidate says: " ++ X)
      = String.mk (dropTrailingWs ("Candidate says: ".data ++ X.data)) := by
    unfold pyStrip
    rw [String.data_append]
    congr 1
  rw [hstep]
  by_cases hX : ∃ x ∈ X.data, ¬ pyIsSpace x
  · have htr : dropTrailingWs ("Candidate says: ".data ++ X.data)
        = "Candidate says: ".data ++ dropTrailingWs X.data := dropTrailingWs_append_of_exists hX
    rw [htr]
    have hlow : (pyLower (String.mk ("Candidate says: ".data ++ dropTrailingWs X.data))).data
        = "candidate says:".data ++ ' ' :: (dropTrailingWs X.data).map Char.toLower := by
      show ("Candidate says: ".data ++ dropTrailingWs X.data).map Char.toLower
          = "candidate says:".data ++ ' ' :: (dropTrailingWs X.data).map Char.toLower
      rw [List.map_append]
      rfl
    rw [if_pos (by rw [hlow]; exact startsWithList_append _ _)]
    have hcolon : afterFirstColon (String.mk ("Candidate says: ".data ++ dropTrailingWs X.data)).data
        = ' ' :: dropTrailingWs X.data := by
      show afterFirstColon ("Candidate says: ".data ++ dropTrailingWs X.data)
          = ' ' :: dropTrailingWs X.data
      have : "Candidate says: ".data ++ dropTrailingWs X.data
          = "Candidate says".data ++ ':' :: (' ' :: dropTrailingWs X.data) := by
        rfl
      rw [this, afterFirstColon_append (by decide)]
    rw [hcolon]
    unfold pyStrip dropLeadingWs
    show String.mk (dropTrailingWs (List.dropWhile pyIsSpace (' ' :: dropTrailingWs X.data)))
        = String.mk (dropTrailingWs (List.dropWhile pyIsSpace X.data))
    rw [List.dropWhile_cons, if_pos (by decide)]
    show String.mk (dropTrailingWs (dropLeadingWs (dropTrailingWs X.data))) = _
    rw [dropLeading_dropTrailing_comm, dropTrailingWs_idem]
    rfl
  · push_neg at hX
    have hX' : ∀ x ∈ X.data, pyIsSpace x := by simpa using hX
    have htr : dropTrailingWs ("Candidate says: ".data ++ X.data)
        = "Candidate says:".data := by
      rw [dropTrailingWs_append_ws hX']
      decide
    rw [htr]
    rw [if_pos (by decide)]
    have hX0 : pyStrip X = "" := by
      unfold pyStrip dropLeadingWs
      rw [List.dropWhile_eq_nil_iff.mpr hX']
      rfl
    rw [hX0]
    decide

/-- Counterexample for C7 as stated: when X itself starts with the
prefix, normalization is not idempotent — `evaluate("Candidate says: X")`
routes `"candidate says: hi"` while `evaluate(X)` routes `"hi"`, and the
results differ. -/
theorem prefix_normalization_counterexample :
    evaluate_text fbSettings (fun _ => .error .network)
        ("Candidate says: " ++ "candidate says: hi")
      ≠ evaluate_text fbSettings (fun _ => .error .network) "candidate says: hi" := by
  decide

/-- **C7 (amended).** For every answer text X whose trimmed form does not
itself case-insensitively start with `"candidate says:"`, and all
leading/trailing whitespace paddings, `evaluate` applied to
`"Candidate says: X"` and `evaluate` applied to `X` route the same
normalized text (the trimmed X) into downstream scoring and produce equal
results.  (When X itself starts with the prefix the two calls differ,
because normalization strips the prefix only once; see the
counterexample.) -/
theorem prefix_normalization (s : Settings)
    (transport : String → Except TransportError String) (X ws1 ws2 ws3 ws4 : String)
    (hX : startsWithList (pyLower (pyStrip X)).data "candidate says:".data = false)
    (h1 : ∀ c ∈ ws1.data, pyIsSpace c) (h2 : ∀ c ∈ ws2.data, pyIsSpace c)
    (h3 : ∀ c ∈ ws3.data, pyIsSpace c) (h4 : ∀ c ∈ ws4.data, pyIsSpace c) :
    evaluate_text s transport (ws1 ++ "Candidate says: " ++ X ++ ws2)
      = evaluate_text s transport (ws3 ++ X ++ ws4) := by
  apply evaluate_text_congr
  rw [normalizeAnswer_prefixed X ws1 ws2 h1 h2, normalizeAnswer_unprefixed hX h3 h4]

/-- Witness for C7 at a concrete answer and paddings. -/
theorem prefix_normalization_witness :
    evaluate_text fbSettings (fun _ => .error .network)
        (" " ++ "Candidate says: " ++ "I would design it" ++ "  ")
      = evaluate_text fbSettings (fun _ => .error .network)
        ("" ++ "I would design it" ++ " ") :=
  prefix_normalization fbSettings (fun _ => .error .network)
    "I would design it" " " "  " "" " "
    (by decide) (by decide) (by decide) (by decide) (by decide)

/-- **C10.** A numeric but non-integer remote score is converted with
integer truncation toward zero before clamping (floor for nonnegative
values, ceiling for negative ones): a JSON score of 4.9 yields 4, and 0.5
yields 0 which clamps to 1; a numeric string such as `"4"` is accepted as
the integer 4. -/
theorem parse_score_truncation :
    parse_model_json "\x7b\"score\": 4.9\x7d"
      = .ok { score := 4, summary := "", improvement := "" }
    ∧ parse_model_json "\x7b\"score\": 0.5\x7d"
      = .ok { score := 1, summary := "", improvement := "" }
    ∧ parse_model_json "\x7b\"score\": \"4\"\x7d"
      = .ok { score := 4, summary := "", improvement := "" }
    ∧ ∀ q : Rat, pyIntOfJson (.float q) = some (if 0 ≤ q then ⌊q⌋ else ⌈q⌉) := by
  refine ⟨by rfl, by rfl, by rfl, fun q => ?_⟩
  show some (ratTrunc q) = _
  congr 1
  unfold ratTrunc
  by_cases hq : 0 ≤ q
  · rw [if_pos hq, Rat.floor_def]
    exact Int.tdiv_eq_ediv (Rat.num_nonneg.mpr hq) (Int.ofNat_nonneg _)
  · rw [if_neg hq]
    have hn : q.num < 0 := by
      by_contra hc
      exact hq (Rat.num_nonneg.mp (le_of_not_lt hc))
    have h1 : q.num.tdiv (q.den : Int) = -((-q.num).tdiv (q.den : Int)) := by
      rw [Int.neg_tdiv, neg_neg]
    have h2 : (-q.num).tdiv ((q.den : Int)) = ⌊-q⌋ := by
      rw [show ⌊-q⌋ = (-q).num / ((-q).den : Int) from Rat.floor_def,
        Rat.neg_num, Rat.neg_den]
      exact Int.tdiv_eq_ediv (by omega) (Int.ofNat_nonneg _)
    rw [h1, h2]
    rfl

/-- Shape of every successful `parse_model_json` result: a span was found
and parsed to an object, the score is the clamp of the converted score
field (1 when absent), and the text fields are the stripped
stringifications of their fields (empty when absent). -/
theorem parse_ok_shape (raw : String) (r : EvaluationResult)
    (h : parse_model_json raw = .ok r) :
    ∃ cand kvs, spanOf raw = some cand ∧ jloads cand = some (.obj kvs)
      ∧ ((objGet kvs "score" = none ∧ r.score = 1)
         ∨ (∃ v n, objGet kvs "score" = some v ∧ pyIntOfJson v = some n
             ∧ r.score = max 1 (min 5 n)))
      ∧ r.summary = pyStrip (pyStr ((objGet kvs "summary").getD (.str "")))
      ∧ r.improvement = pyStrip (pyStr ((objGet kvs "improvement").getD (.str ""))) := by
  unfold parse_model_json at h
  split at h
  · exact absurd h (by simp)
  · split at h
    · exact absurd h (by simp)
    · rename_i cand hcand
      split at h
      · exact absurd h (by simp)
      · rename_i kvs hkvs
        split at h
        · exact absurd h (by simp)
        · rename_i n hn
          injection h with h
          subst h
          refine ⟨cand, kvs, hcand, hkvs, ?_, rfl, rfl⟩
          cases hsc : objGet kvs "score" with
          | none =>
            rw [hsc] at hn
            simp only [Option.some.injEq] at hn
            subst hn
            exact Or.inl ⟨rfl, by rfl⟩
          | some v =>
            rw [hsc] at hn
            exact Or.inr ⟨v, n, rfl, hn, rfl⟩
      · exact absurd h (by simp)

/-- A found span parsing to an object with an admissible score field
makes `parse_model_json` succeed. -/
theorem parse_ok_of (raw cand : String) (kvs : List (String × Json))
    (h1 : spanOf raw = some cand) (h2 : jloads cand = some (.obj kvs))
    (h3 : scoreFieldOk kvs) : ∃ r, parse_model_json raw = .ok r := by
  have hraw : ¬ raw = "" := by
    intro he
    rw [he, show spanOf "" = none from rfl] at h1
    cases h1
  unfold parse_model_json
  rw [if_neg hraw]
  rcases h3 with hnone | ⟨v, n, hv, hn⟩
  · simp only [h1, h2, hnone]
    exact ⟨_, rfl⟩
  · simp only [h1, h2, hv, hn]
    exact ⟨_, rfl⟩

/-- **C4 (amended).** `parse_model_json` succeeds exactly when a span from
a first opening brace to a later last closing brace exists, that span is
valid JSON, and its score field (if present) is numeric — i.e. it fails
also when the span is valid JSON but carries a non-numeric score, rather
than defaulting that score to 1.  On success, score defaults to 1 when
the field is missing, is truncated to an integer and clamped to `[1,5]`,
and summary and improvement default to the empty string when missing and
are trimmed of surrounding whitespace. -/
theorem parse_model_json_characterization (raw : String) :
    ((∃ r, parse_model_json raw = .ok r)
      ↔ ∃ cand kvs, spanOf raw = some cand ∧ jloads cand = some (.obj kvs)
          ∧ scoreFieldOk kvs)
    ∧ ∀ r, parse_model_json raw = .ok r →
        ∃ cand kvs, spanOf raw = some cand ∧ jloads cand = some (.obj kvs)
          ∧ ((objGet kvs "score" = none ∧ r.score = 1)
             ∨ (∃ v n, objGet kvs "score" = some v ∧ pyIntOfJson v = some n
                 ∧ r.score = max 1 (min 5 n)))
          ∧ r.summary = pyStrip (pyStr ((objGet kvs "summary").getD (.str "")))
          ∧ r.improvement = pyStrip (pyStr ((objGet kvs "improvement").getD (.str ""))) := by
  refine ⟨⟨?_, ?_⟩, fun r hr => parse_ok_shape raw r hr⟩
  · rintro ⟨r, hr⟩
    obtain ⟨cand, kvs, h1, h2, hsc, -, -⟩ := parse_ok_shape raw r hr
    refine ⟨cand, kvs, h1, h2, ?_⟩
    rcases hsc with ⟨hnone, -⟩ | ⟨v, n, hv, hn, -⟩
    · exact Or.inl hnone
    · exact Or.inr ⟨v, n, hv, hn⟩
  · rintro ⟨cand, kvs, h1, h2, h3⟩
    exact parse_ok_of raw cand kvs h1 h2 h3

/-- Counterexample for C4 as stated: this input has a brace-to-brace span
that is valid JSON, yet `parse_model_json` fails (Python `int` raises on
the non-numeric score) instead of defaulting the score to 1. -/
theorem parse_nonnumeric_score_counterexample :
    spanOf "\x7b\"score\": \"x\"\x7d" = some "\x7b\"score\": \"x\"\x7d"
    ∧ jloads "\x7b\"score\": \"x\"\x7d" = some (.obj [("score", .str "x")])
    ∧ parse_model_json "\x7b\"score\": \"x\"\x7d" = .error .badScore :=
  ⟨by rfl, by rfl, by rfl⟩

/-- Witness for C4 at a concrete raw reply with a whitespace-padded
summary and no improvement field. -/
theorem parse_model_json_characterization_witness :
    ∃ cand kvs,
      spanOf "\x7b\"score\": 3, \"summary\": \" hi \"\x7d" = some cand
      ∧ jloads cand = some (.obj kvs)
      ∧ ((objGet kvs "score" = none
            ∧ (⟨3, "hi", ""⟩ : EvaluationResult).score = 1)
         ∨ (∃ v n, objGet kvs "score" = some v ∧ pyIntOfJson v = some n
             ∧ (⟨3, "hi", ""⟩ : EvaluationResult).score = max 1 (min 5 n)))
      ∧ (⟨3, "hi", ""⟩ : EvaluationResult).summary
          = pyStrip (pyStr ((objGet kvs "summary").getD (.str "")))
      ∧ (⟨3, "hi", ""⟩ : EvaluationResult).improvement
          = pyStrip (pyStr ((objGet kvs "improvement").getD (.str ""))) :=
  (parse_model_json_characterization "\x7b\"score\": 3, \"summary\": \" hi \"\x7d").2
    ⟨3, "hi", ""⟩ (by rfl)

/-- **C9.** With no API key configured (absent, empty, or whitespace-only:
the stripped key is empty), fallback is forced on regardless of the
override flag; and whenever fallback is off, the key is non-empty, so the
missing-credential branch of `call_openai_chat` can never be taken from
`evaluate_text`. -/
theorem no_key_forces_fallback (env : String → Option String) :
    (pyStrip ((env "OPENAI_API_KEY").getD "") = ""
      → (Settings.ofEnv env).USE_FALLBACK = true)
    ∧ ((Settings.ofEnv env).USE_FALLBACK = false
      → (Settings.ofEnv env).OPENAI_API_KEY ≠ ""
        ∧ ∀ tr : Except TransportError String,
            call_openai_chat (Settings.ofEnv env).OPENAI_API_KEY tr ≠ .error .config) := by
  constructor
  · intro h
    simp [Settings.ofEnv, h]
  · intro h
    have hkey : (Settings.ofEnv env).OPENAI_API_KEY ≠ "" := by
      intro hk
      apply absurd h
      simp only [Settings.ofEnv] at hk ⊢
      simp [hk]
    refine ⟨hkey, fun tr => ?_⟩
    unfold call_openai_chat
    rw [if_neg hkey]
    cases tr with
    | error e => simp
    | ok raw => simp

/-- Witness for C9: no key in the environment and the override flag set to
a non-enabling value still forces fallback on. -/
theorem no_key_forces_fallback_witness :
    (Settings.ofEnv (fun v => if v = "USE_FALLBACK" then some "false" else none)).USE_FALLBACK
      = true :=
  (no_key_forces_fallback (fun v => if v = "USE_FALLBACK" then some "false" else none)).1
    (by decide)

/-- The key order is reflexive. -/
theorem keyLE_refl (k : Int × Int) : keyLE k k = true := by
  simp [keyLE]

/-- Stability of one insertion step, expressed through key classes: the
inserted element lands in front of the elements of equal key, so
filtering any key class commutes with insertion up to the new head. -/
theorem filter_orderedInsert (x : RankedCandidate) (l : List RankedCandidate) (k : Int × Int) :
    (List.orderedInsert rankedLE x l).filter (fun z => decide (rankKey z = k))
      = if rankKey x = k then x :: l.filter (fun z => decide (rankKey z = k))
        else l.filter (fun z => decide (rankKey z = k)) := by
  induction l with
  | nil =>
    rw [List.orderedInsert, List.filter_cons]
    by_cases hx : rankKey x = k <;> simp [hx]
  | cons y ys ih =>
    rw [List.orderedInsert]
    by_cases hxy : rankedLE x y
    · rw [if_pos hxy, List.filter_cons, List.filter_cons]
      by_cases hx : rankKey x = k <;> simp [hx]
    · rw [if_neg hxy, List.filter_cons, ih, List.filter_cons]
      by_cases hy : rankKey y = k
      · have hx : ¬ rankKey x = k := by
          intro hx
          exact hxy (show keyLE (rankKey x) (rankKey y) = true by
            rw [hx, hy]; exact keyLE_refl k)
        simp [hx, hy]
      · by_cases hx : rankKey x = k <;> simp [hx, hy]
  
/-- Stability of the whole sort: each key class of the output is the key
class of the input, in the same relative order. -/
theorem filter_pySortRanked (l : List RankedCandidate) (k : Int × Int) :
    (pySortRanked l).filter (fun z => decide (rankKey z = k))
      = l.filter (fun z => decide (rankKey z = k)) := by
  induction l with
  | nil => rfl
  | cons x xs ih =>
    show (List.orderedInsert rankedLE x (List.insertionSort rankedLE xs)).filter _ = _
    rw [filter_orderedInsert, List.filter_cons]
    have ih' : (List.insertionSort rankedLE xs).filter (fun z => decide (rankKey z = k))
        = xs.filter (fun z => decide (rankKey z = k)) := ih
    by_cases hx : rankKey x = k <;> simp [hx, ih']

/-- Writing preserves length. -/
theorem setAt_length {α : Type} (l : List α) (i : Nat) (v : α) :
    (setAt l i v).length = l.length := by
  induction l generalizing i with
  | nil => rfl
  | cons x xs ih =>
    cases i with
    | zero => rfl
    | succ n => simp [setAt, ih]

/-- Reading after a write. -/
theorem getElem?_setAt {α : Type} (l : List α) (i : Nat) (v : α) (j : Nat) :
    (setAt l i v)[j]? = if i = j ∧ j < l.length then some v else l[j]? := by
  induction l generalizing i j with
  | nil => simp [setAt]
  | cons x xs ih =>
    cases i with
    | zero =>
      cases j with
      | zero => simp [setAt]
      | succ m => simp [setAt]
    | succ n =>
      cases j with
      | zero => simp [setAt]
      | succ m =>
        simp only [setAt, List.getElem?_cons_succ, ih, List.length_cons]
        by_cases hc : n = m ∧ m < xs.length
        · rw [if_pos hc, if_pos (by omega)]
        · rw [if_neg hc, if_neg (by omega)]

/-- Reading the slots after all completions in `order` have stored their
results. -/
theorem foldl_setAt_getElem? {α : Type} (results : List α) (order : List Nat)
    (init : List (Option α)) (j : Nat) :
    (order.foldl (fun acc i => setAt acc i results[i]?) init)[j]?
      = if j ∈ order ∧ j < init.length then some results[j]? else init[j]? := by
  induction order generalizing init with
  | nil => simp
  | cons a rest ih =>
    rw [List.foldl_cons, ih, setAt_length]
    by_cases h1 : j ∈ rest ∧ j < init.length
    · rw [if_pos h1, if_pos ⟨List.mem_cons_of_mem a h1.1, h1.2⟩]
    · rw [if_neg h1, getElem?_setAt]
      by_cases h2 : a = j ∧ j < init.length
      · rw [if_pos h2, if_pos ⟨by simp [h2.1], h2.2⟩, h2.1]
      · rw [if_neg h2, if_neg ?_]
        rintro ⟨hmem, hlen⟩
        rcases List.mem_cons.mp hmem with heq | hmem2
        · exact h2 ⟨heq.symm, hlen⟩
        · exact h1 ⟨hmem2, hlen⟩

/-- The `asyncio.gather` model: for every completion order that is a
permutation of the task indices, the assembled result list is the
in-task-order result list — completion order has no effect. -/
theorem gatherAssemble_perm {α : Type} (results : List α) (order : List Nat)
    (h : order.Perm (List.range results.length)) :
    gatherAssemble results order = results.map some := by
  apply List.ext_getElem?
  intro j
  unfold gatherAssemble
  rw [foldl_setAt_getElem?, List.length_replicate]
  by_cases hj : j < results.length
  · rw [if_pos ⟨h.mem_iff.mpr (List.mem_range.mpr hj), hj⟩]
    rw [List.getElem?_map, List.getElem?_eq_getElem hj]
    rfl
  · rw [if_neg (by tauto)]
    have h1 : (List.replicate results.length (none : Option α))[j]? = none :=
      List.getElem?_eq_none (by simpa using Nat.le_of_not_lt hj)
    have h2 : (results.map some)[j]? = none :=
      List.getElem?_eq_none (by simpa using Nat.le_of_not_lt hj)
    rw [h1, h2]

/-- **C3.** For every non-empty candidate list, `rank_candidates` returns
the built `ranked_objs` sorted in descending order of score, ties broken
by descending character length of summary, stably: each (score,
summary-length) class keeps its relative input order (stated as a filter
equality), the output is a permutation of `ranked_objs`, and the
completion order of the concurrent evaluations has no effect — assembling
the gather result in any completion order yields the in-order result
list. -/
theorem rank_candidates_sorted_stable (s : Settings)
    (transport : String → Except TransportError String)
    (cs : List CandidateIn) (h : cs ≠ []) :
    ∃ out, rank_candidates s transport cs = .ok out
      ∧ out.Pairwise (fun a b => b.score < a.score
          ∨ (a.score = b.score ∧ b.summary.length ≤ a.summary.length))
      ∧ out.Perm (rankedObjsOf s transport cs)
      ∧ (∀ k : Int × Int, out.filter (fun z => decide (rankKey z = k))
          = (rankedObjsOf s transport cs).filter (fun z => decide (rankKey z = k)))
      ∧ (∀ order : List Nat,
          order.Perm (List.range (evaluate_bulk s transport
            (cs.map fun c => (c.id, c.text))).length) →
          gatherAssemble (evaluate_bulk s transport (cs.map fun c => (c.id, c.text))) order
            = (evaluate_bulk s transport (cs.map fun c => (c.id, c.text))).map some) := by
  refine ⟨pySortRanked (rankedObjsOf s transport cs), ?_, ?_, ?_, ?_, ?_⟩
  · unfold rank_candidates
    rw [if_neg (by simpa using h)]
    rfl
  · have hs := List.sorted_insertionSort rankedLE (rankedObjsOf s transport cs)
    refine List.Pairwise.imp ?_ hs
    intro a b hab
    unfold rankedLE keyLE rankKey at hab
    dsimp only at hab
    simp only [Bool.or_eq_true, Bool.and_eq_true, decide_eq_true_eq] at hab
    omega
  · exact List.perm_insertionSort rankedLE _
  · exact fun k => filter_pySortRanked _ k
  · exact fun order hord => gatherAssemble_perm _ order hord

/-- Witness for C3 at a concrete two-candidate batch in fallback mode. -/
theorem rank_candidates_sorted_stable_witness :
    ∃ out, rank_candidates fbSettings trW csW = .ok out
      ∧ out.Pairwise (fun a b => b.score < a.score
          ∨ (a.score = b.score ∧ b.summary.length ≤ a.summary.length))
      ∧ out.Perm (rankedObjsOf fbSettings trW csW)
      ∧ (∀ k : Int × Int, out.filter (fun z => decide (rankKey z = k))
          = (rankedObjsOf fbSettings trW csW).filter (fun z => decide (rankKey z = k)))
      ∧ (∀ order : List Nat,
          order.Perm (List.range (evaluate_bulk fbSettings trW
            (csW.map fun c => (c.id, c.text))).length) →
          gatherAssemble (evaluate_bulk fbSettings trW (csW.map fun c => (c.id, c.text))) order
            = (evaluate_bulk fbSettings trW (csW.map fun c => (c.id, c.text))).map some) :=
  rank_candidates_sorted_stable fbSettings trW csW (by decide)

/-- **C8.** `rank_candidates` fails — with exactly the 400 client error
carrying `"No candidates provided"` — if and only if the candidate list
is empty; every non-empty input succeeds.  (The other public operation,
`evaluate_answer`, is a total function by type, so this is the only error
either operation ever surfaces.) -/
theorem rank_empty_iff (s : Settings)
    (transport : String → Except TransportError String) (cs : List CandidateIn) :
    (cs = [] → rank_candidates s transport cs = .error (400, "No candidates provided"))
    ∧ (cs ≠ [] → ∃ out, rank_candidates s transport cs = .ok out)
    ∧ (∀ e, rank_candidates s transport cs = .error e
        → cs = [] ∧ e = (400, "No candidates provided")) := by
  cases cs with
  | nil =>
    have h0 : rank_candidates s transport []
        = .error (400, "No candidates provided") := rfl
    refine ⟨fun _ => h0, fun hne => absurd rfl hne, fun e he => ⟨rfl, ?_⟩⟩
    rw [h0] at he
    injection he with h
    exact h.symm
  | cons c cs =>
    have h0 : rank_candidates s transport (c :: cs)
        = .ok (pySortRanked (rankedObjsOf s transport (c :: cs))) := by
      unfold rank_candidates
      rw [if_neg (by simp)]
      rfl
    refine ⟨fun he => absurd he (List.cons_ne_nil c cs), fun _ => ⟨_, h0⟩, fun e he => ?_⟩
    rw [h0] at he
    cases he

/-- Witness for C8: a singleton batch succeeds. -/
theorem rank_empty_iff_witness :
    ∃ out, rank_candidates fbSettings trW [{ id := some "c1", text := "hi" }] = .ok out :=
  (rank_empty_iff fbSettings trW [{ id := some "c1", text := "hi" }]).2.1 (by decide)
